import Mathlib

/-!
Shallow embedding of the Mycelica conversation importers
(`scripts/import_conversations.py`, the pairing variant, and
`scripts/import_test_data.py`, the flat variant).

Python dictionaries are embedded as structures whose fields are `Option`
types: `none` stands for an absent key (or an explicit `None` value, which
the scripts treat identically through `.get` defaults and truthiness).
Python exceptions are embedded as `Except PyErr`; expressions that cannot
raise are plain functions.  SQLite is external to the scripts, so a
database is a pair of row lists and an `INSERT` is an append; the flat
importer additionally records its statement trace so that statement order
(deletes, node inserts, edge inserts) is visible.  `datetime.fromisoformat`
and wall-clock time are external library calls; they enter as the
`fromisoformat` and `now_ms` fields of an `Env`, and `uuid.uuid4()` as a
stream `fresh` of generated identifiers indexed by call order.
-/

/-- Python exceptions that the embedded code can raise. -/
inductive PyErr where
  | indexError
  | keyError
  deriving DecidableEq, Repr

/-- One element of a `content` block list: a dict read only through
`.get('text', ...)`, so only its `text` field is embedded. -/
structure ContentBlock where
  text : Option String
  deriving DecidableEq, Repr

/-- One raw chat message, covering every key the two scripts read. -/
structure RawMsg where
  sender : Option String
  text : Option String
  content : Option (List ContentBlock)
  created_at : Option String
  updated_at : Option String
  uuid : Option String
  deriving DecidableEq, Repr

/-- One conversation record, covering every key the two scripts read. -/
structure Conv where
  uuid : Option String
  name : Option String
  summary : Option String
  created_at : Option String
  updated_at : Option String
  chat_messages : List RawMsg
  deriving DecidableEq, Repr

/-- External collaborators of the scripts: `datetime.fromisoformat`
(returning the parsed instant in Unix milliseconds, per
`int(dt.timestamp() * 1000)`), the current wall clock in milliseconds,
and the stream of `uuid.uuid4()` results in call order. -/
structure Env where
  fromisoformat : String → Option Int
  now_ms : Int
  fresh : Nat → String

/-- A fixed environment used to instantiate universally quantified
theorems at concrete inputs: no string parses, the clock reads 0. -/
def env0 : Env where
  fromisoformat := fun _ => none
  now_ms := 0
  fresh := fun _ => ""

/-- Python `s[:n]` on a string: the first `n` characters (code points). -/
def pyTake (s : String) (n : Nat) : String :=
  String.mk (s.data.take n)

/-- Python `len(s)` on a string: the number of characters. -/
def pyLen (s : String) : Nat :=
  s.data.length

/-- Python `s.replace(c, r)` for a one-character pattern `c`: every
occurrence of `c` is replaced by `r`. -/
def pyReplaceChar (s : String) (c : Char) (r : String) : String :=
  String.mk (s.data.flatMap (fun d => if d = c then r.data else [d]))

/-- Body of `parse_timestamp` before the `except:` handler
(`import_conversations.py` lines 13-15, identical in
`import_test_data.py` lines 63-65).  A `none` argument stands for a
non-string input, where `ts.replace` raises `AttributeError`; a failed
parse raises `ValueError` inside `fromisoformat`.  Both are embedded as
`keyError`-style errors only to the extent the handler can see them: the
bare `except:` catches every exception, so only successes matter. -/
def parseTimestampBody (env : Env) (ts : Option String) : Except PyErr Int :=
  match ts with
  | none => .error .keyError
  | some s =>
    match env.fromisoformat (pyReplaceChar s 'Z' "+00:00") with
    | some ms => .ok ms
    | none => .error .keyError

/-- `parse_timestamp` (`import_conversations.py` lines 11-17): the bare
`except:` turns every failure into the current wall clock. -/
def parse_timestamp (env : Env) (ts : Option String) : Int :=
  match parseTimestampBody env ts with
  | .ok ms => ms
  | .error _ => env.now_ms

/-- The character class stripped by Python `str.strip()` (ASCII range). -/
def isPySpace (c : Char) : Bool :=
  c = ' ' || c = '\t' || c = '\n' || c = '\r' || c = Char.ofNat 11 || c = Char.ofNat 12

/-- Python `str.strip()`: drop leading and trailing whitespace. -/
def pyStrip (s : String) : String :=
  String.mk (((s.data.dropWhile isPySpace).reverse.dropWhile isPySpace).reverse)

/-- Python `s.split('\n')[0]`: the characters before the first newline
(the whole string when it has none). -/
def pyFirstLine (s : String) : String :=
  String.mk (s.data.takeWhile (fun c => c ≠ '\n'))

/-- `create_exchange_title` (`import_conversations.py` lines 19-25):
strip the text, keep the first line, truncate to 60 characters with an
ellipsis when longer. -/
def create_exchange_title (human_text : String) : String :=
  let clean := pyStrip human_text
  let first_line := pyFirstLine clean
  if pyLen first_line > 60 then pyTake first_line 60 ++ "..." else first_line

/-- The text extraction on `import_conversations.py` line 35:
`msg.get('text', '') or msg.get('content', [{}])[0].get('text', '') or ''`.
When `text` is absent or falsy and `content` is present but an empty
list, the subscript `[0]` raises `IndexError`. -/
def extractText (m : RawMsg) : Except PyErr String :=
  match m.text with
  | some t => if t ≠ "" then .ok t else extractTextFallback m
  | none => extractTextFallback m
where
  /-- The `or msg.get('content', [{}])[0].get('text', '') or ''` part. -/
  extractTextFallback (m : RawMsg) : Except PyErr String :=
    match m.content with
    | none => .ok ""
    | some [] => .error .indexError
    | some (b :: _) => .ok (b.text.getD "")

/-- The assistant-side extraction (`import_conversations.py` lines
45-50): flat `text` field first, else the first content block when the
`content` value is a non-empty list, else the empty string.  This path
guards the empty list and cannot raise. -/
def extractAssistantText (m : RawMsg) : String :=
  let t := m.text.getD ""
  if t ≠ "" then t
  else
    match m.content with
    | some (b :: _) => b.text.getD ""
    | _ => ""

/-- One derived exchange (`import_conversations.py` lines 54-58, 61-65). -/
structure Exchange where
  title : String
  content : String
  created_at : Int
  deriving DecidableEq, Repr

/-- The exchange appended for a human message (lines 54-58). -/
def humanExchange (env : Env) (human_text assistant_text : String) (m : RawMsg) : Exchange where
  title := create_exchange_title human_text
  content := "Human: " ++ human_text ++ "\n\nAssistant: " ++ assistant_text
  created_at := parse_timestamp env (some (m.created_at.getD ""))

/-- The exchange appended for an orphan non-human message (lines 61-65). -/
def orphanExchange (env : Env) (text : String) (m : RawMsg) : Exchange where
  title := create_exchange_title (if text ≠ "" then pyTake text 100 else "Response")
  content := "Assistant: " ++ text
  created_at := parse_timestamp env (some (m.created_at.getD ""))

/-- `pair_messages` (`import_conversations.py` lines 27-69).  The while
loop with cursor `i` becomes recursion that consumes one message (orphan
or unanswered human) or two (human followed by assistant).  The line-35
extraction runs for every message the cursor visits and its `IndexError`
propagates; a consumed assistant reply is read only through the guarded
lines 45-50 extraction. -/
def pair_messages (env : Env) : List RawMsg → Except PyErr (List Exchange)
  | [] => .ok []
  | msg :: rest =>
    match extractText msg with
    | .error e => .error e
    | .ok text =>
      if msg.sender.getD "" = "human" then
        match rest with
        | next :: rest2 =>
          if next.sender = some "assistant" then
            match pair_messages env rest2 with
            | .error e => .error e
            | .ok exs => .ok (humanExchange env text (extractAssistantText next) msg :: exs)
          else
            match pair_messages env (next :: rest2) with
            | .error e => .error e
            | .ok exs => .ok (humanExchange env text "*No response*" msg :: exs)
        | [] => .ok [humanExchange env text "*No response*" msg]
      else
        match pair_messages env rest with
        | .error e => .error e
        | .ok exs => .ok (orphanExchange env text msg :: exs)
termination_by msgs => msgs.length
decreasing_by all_goals simp_arith [List.length]

/-- `pair_messages` instrumented with the cursor `i` of the while loop:
each emitted exchange is tagged with the index of the human or orphan
message it starts from.  The branches mirror `pair_messages` exactly;
the cursor advances by 2 when an assistant reply is consumed and by 1
otherwise, as on lines 43 and 67. -/
def pairIdx (env : Env) : Nat → List RawMsg → Except PyErr (List (Nat × Exchange))
  | _, [] => .ok []
  | i, msg :: rest =>
    match extractText msg with
    | .error e => .error e
    | .ok text =>
      if msg.sender.getD "" = "human" then
        match rest with
        | next :: rest2 =>
          if next.sender = some "assistant" then
            match pairIdx env (i + 2) rest2 with
            | .error e => .error e
            | .ok exs => .ok ((i, humanExchange env text (extractAssistantText next) msg) :: exs)
          else
            match pairIdx env (i + 1) (next :: rest2) with
            | .error e => .error e
            | .ok exs => .ok ((i, humanExchange env text "*No response*" msg) :: exs)
        | [] => .ok [(i, humanExchange env text "*No response*" msg)]
      else
        match pairIdx env (i + 1) rest with
        | .error e => .error e
        | .ok exs => .ok ((i, orphanExchange env text msg) :: exs)
termination_by _ msgs => msgs.length
decreasing_by all_goals simp_arith [List.length]

/-- Messages whose sender is `human`, as tested on line 37
(`msg.get('sender', '') == 'human'`). -/
def countHumanPairing (msgs : List RawMsg) : Nat :=
  msgs.countP (fun m => m.sender.getD "" = "human")

/-! ## The pairing importer's database writes (`import_conversations.py main`) -/

/-- `math.pi`. -/
def mathPi : Float := 3.141592653589793

/-- A row of the `nodes` table written by `import_conversations.py`
(all 25 columns of the INSERT on lines 151-158). -/
structure PNode where
  id : String
  type : String
  title : String
  url : Option String
  content : String
  position_x : Float
  position_y : Float
  created_at : Int
  updated_at : Int
  cluster_id : Option Int
  cluster_label : Option String
  ai_title : Option String
  summary : Option String
  tags : Option String
  emoji : String
  is_processed : Int
  depth : Int
  is_item : Int
  is_universe : Int
  parent_id : Option String
  child_count : Int
  conversation_id : Option String
  sequence_index : Option Int
  is_pinned : Int
  last_accessed_at : Option Int

/-- The `nodes` table seen by the pairing importer. -/
structure PDB where
  nodes : List PNode

/-- The three counters reported at the end of `main` (lines 122-124). -/
structure Stats where
  conversations_imported : Nat
  exchanges_imported : Nat
  skipped : Nat
  deriving DecidableEq, Repr

/-- The conversation container row (lines 139-166): positioned on the
outer circle, `is_item = 0`, `conversation_id` NULL, `child_count` the
number of exchanges. -/
def pConvNode (env : Env) (convId : String) (c : Conv) (i nConvos : Nat)
    (exchangeCount : Nat) : PNode :=
  let angle := 2.0 * mathPi * Float.ofNat i / Float.ofNat (max nConvos 1)
  let x := 300.0 * Float.cos angle
  let y := 300.0 * Float.sin angle
  let created_at := parse_timestamp env (some (c.created_at.getD ""))
  { id := convId
    type := "context"
    title := match c.name with
      | some n => if n ≠ "" then n else "Untitled"
      | none => "Untitled"
    url := none
    content := toString exchangeCount ++ " exchanges"
    position_x := x
    position_y := y
    created_at := created_at
    updated_at := match c.updated_at with
      | some s => if s ≠ "" then parse_timestamp env (some s) else created_at
      | none => created_at
    cluster_id := none
    cluster_label := none
    ai_title := none
    summary := c.summary
    tags := none
    emoji := "💬"
    is_processed := 0
    depth := 0
    is_item := 0
    is_universe := 0
    parent_id := none
    child_count := Int.ofNat exchangeCount
    conversation_id := none
    sequence_index := none
    is_pinned := 0
    last_accessed_at := none }

/-- One exchange row (lines 172-194): `is_item = 1`, `conversation_id`
the parent conversation, `sequence_index` the position in the
conversation. -/
def pExchangeNode (convId : String) (x y : Float) (exchangeCount idx : Nat)
    (ex : Exchange) : PNode :=
  let exAngle := 2.0 * mathPi * Float.ofNat idx / Float.ofNat (max exchangeCount 1)
  { id := convId ++ "-ex-" ++ toString idx
    type := "thought"
    title := ex.title
    url := none
    content := ex.content
    position_x := x + 80.0 * Float.cos exAngle
    position_y := y + 80.0 * Float.sin exAngle
    created_at := ex.created_at
    updated_at := ex.created_at
    cluster_id := none
    cluster_label := none
    ai_title := none
    summary := none
    tags := none
    emoji := "💬"
    is_processed := 0
    depth := 0
    is_item := 1
    is_universe := 0
    parent_id := none
    child_count := 0
    conversation_id := some convId
    sequence_index := some (Int.ofNat idx)
    is_pinned := 0
    last_accessed_at := none }

/-- The exchange rows of one conversation, in order (loop on line 172). -/
def pExchangeNodes (convId : String) (x y : Float) (exchangeCount : Nat) :
    Nat → List Exchange → List PNode
  | _, [] => []
  | idx, ex :: rest =>
    pExchangeNode convId x y exchangeCount idx ex ::
      pExchangeNodes convId x y exchangeCount (idx + 1) rest

/-- The `SELECT COUNT(*) FROM nodes WHERE conversation_id IS NOT NULL`
guard value (line 115). -/
def countConvLinked (db : PDB) : Nat :=
  db.nodes.countP (fun n => n.conversation_id.isSome)

/-- The per-conversation loop of `main` (lines 129-209).  `i` is the
`enumerate` index, `k` the number of `uuid.uuid4()` calls made so far
(the default argument of `conv.get('uuid', str(uuid.uuid4()))` is
evaluated on every iteration, so `k` advances once per conversation).
A conversation whose id is already a node id is skipped (lines 133-136);
otherwise the container row and the exchange rows are inserted.
`MAX_EXCHANGES` is `None`, so both limit checks are always false, and
the periodic commit does not change the connection's visible state. -/
def importLoop (env : Env) (nConvos : Nat) :
    List Conv → Nat → Nat → PDB → Stats → Except PyErr (PDB × Stats)
  | [], _, _, db, st => .ok (db, st)
  | c :: rest, i, k, db, st =>
    let convId := c.uuid.getD (env.fresh k)
    if db.nodes.any (fun n => n.id = convId) then
      importLoop env nConvos rest (i + 1) (k + 1) db { st with skipped := st.skipped + 1 }
    else
      match pair_messages env c.chat_messages with
      | .error e => .error e
      | .ok exchanges =>
        let cn := pConvNode env convId c i nConvos exchanges.length
        let exNodes := pExchangeNodes convId cn.position_x cn.position_y
          exchanges.length 0 exchanges
        importLoop env nConvos rest (i + 1) (k + 1)
          ⟨db.nodes ++ cn :: exNodes⟩
          { st with
            conversations_imported := st.conversations_imported + 1
            exchanges_imported := st.exchanges_imported + exchanges.length }

/-- The database-writing part of `main` (lines 111-217), applied to the
already loaded, filtered and shuffled conversation list: if any node
already has a non-null `conversation_id`, the run aborts before
touching the database (lines 114-120); otherwise every conversation is
processed in turn. -/
def mainImport (env : Env) (db : PDB) (convs : List Conv) :
    Except PyErr (PDB × Stats) :=
  if countConvLinked db > 0 then .ok (db, ⟨0, 0, 0⟩)
  else importLoop env convs.length convs 0 0 db ⟨0, 0, 0⟩

/-! ## The flat importer (`import_test_data.py import_conversations`) -/

/-- A row of the `nodes` table of `import_test_data.py` (the 12 columns
of the INSERT on lines 161-164). -/
structure FNode where
  id : String
  type : String
  title : String
  url : Option String
  content : Option String
  position_x : Float
  position_y : Float
  created_at : Int
  updated_at : Int
  level : Int
  parent_id : Option String
  child_count : Int

/-- A row of the `edges` table (INSERT on lines 167-170). -/
structure FEdge where
  id : String
  source_id : String
  target_id : String
  type : String
  label : Option String
  created_at : Int

/-- The two tables seen by the flat importer. -/
structure FDB where
  nodes : List FNode
  edges : List FEdge

/-- `sum(1 for msg in messages if msg.get('sender') == 'human')`
(line 98). -/
def countHumanFlat (msgs : List RawMsg) : Nat :=
  msgs.countP (fun m => m.sender = some "human")

/-- The conversation row of the flat importer (lines 100-113):
level 3, `child_count` the precomputed human-message count. -/
def fConvNode (env : Env) (convId : String) (c : Conv) (x y : Float) : FNode where
  id := convId
  type := "context"
  title := match c.name with
    | some n => if n ≠ "" then n else "Untitled"
    | none => "Untitled"
  url := none
  content := c.summary
  position_x := x
  position_y := y
  created_at := parse_timestamp env (some (c.created_at.getD ""))
  updated_at := parse_timestamp env (some (c.updated_at.getD ""))
  level := 3
  parent_id := none
  child_count := Int.ofNat (countHumanFlat c.chat_messages)

/-- The title of a flat message node (lines 128-131, 136): text cut to
100 characters with an ellipsis when longer, `"Message"` when empty. -/
def fMsgTitle (m : RawMsg) : String :=
  let t0 := m.text.getD ""
  let t1 := pyTake t0 100
  let t2 := if pyLen t0 > 100 then t1 ++ "..." else t1
  if t2 ≠ "" then t2 else "Message"

/-- One message row of the flat importer (lines 133-146). -/
def fMsgNode (env : Env) (convId mid : String) (x y : Float) (mTotal j : Nat)
    (m : RawMsg) : FNode :=
  let msgAngle := 2.0 * mathPi * Float.ofNat j / Float.ofNat (max mTotal 1)
  { id := mid
    type := "thought"
    title := fMsgTitle m
    url := none
    content := m.text
    position_x := x + 80.0 * Float.cos msgAngle
    position_y := y + 80.0 * Float.sin msgAngle
    created_at := parse_timestamp env (some (m.created_at.getD ""))
    updated_at := parse_timestamp env (some (m.updated_at.getD ""))
    level := 4
    parent_id := some convId
    child_count := 0 }

/-- The `contains` edge from a conversation to a message (lines 150-157);
`k` counts the `uuid.uuid4()` calls made so far. -/
def fEdge (env : Env) (convId mid : String) (k : Nat) (m : RawMsg) : FEdge where
  id := env.fresh k
  source_id := convId
  target_id := mid
  type := "contains"
  label := none
  created_at := parse_timestamp env (some (m.created_at.getD ""))

/-- The message loop of one conversation (lines 119-158): `j` is the
`enumerate` index over all messages, non-human messages are skipped
(line 120), and `msg['uuid']` raises `KeyError` when absent (line 123).
Returns the message rows, the edges, and the updated uuid counter. -/
def fMsgs (env : Env) (convId : String) (x y : Float) (mTotal : Nat) :
    List RawMsg → Nat → Nat → Except PyErr (List FNode × List FEdge × Nat)
  | [], _, k => .ok ([], [], k)
  | m :: rest, j, k =>
    if m.sender = some "human" then
      match m.uuid with
      | none => .error .keyError
      | some mid =>
        match fMsgs env convId x y mTotal rest (j + 1) (k + 1) with
        | .error e => .error e
        | .ok (ns, es, kOut) =>
          .ok (fMsgNode env convId mid x y mTotal j m :: ns,
               fEdge env convId mid k m :: es, kOut)
    else fMsgs env convId x y mTotal rest (j + 1) k

/-- The in-memory build of the `nodes` and `edges` lists (loop on lines
89-158): each conversation contributes its container row followed by
its human-message rows, and `conv['uuid']` raises `KeyError` when
absent (line 91).  `i` is the `enumerate` index, `nC` the total
conversation count (the angle divisor on line 92), `k` the uuid
counter. -/
def flatBuild (env : Env) (nC : Nat) :
    List Conv → Nat → Nat → Except PyErr (List FNode × List FEdge)
  | [], _, _ => .ok ([], [])
  | c :: rest, i, k =>
    match c.uuid with
    | none => .error .keyError
    | some convId =>
      match fMsgs env convId
          (300.0 * Float.cos (2.0 * mathPi * Float.ofNat i / Float.ofNat nC))
          (300.0 * Float.sin (2.0 * mathPi * Float.ofNat i / Float.ofNat nC))
          c.chat_messages.length c.chat_messages 0 k with
      | .error e => .error e
      | .ok (mns, mes, kNext) =>
        match flatBuild env nC rest (i + 1) kNext with
        | .error e => .error e
        | .ok (ns, es) =>
          .ok (fConvNode env convId c
              (300.0 * Float.cos (2.0 * mathPi * Float.ofNat i / Float.ofNat nC))
              (300.0 * Float.sin (2.0 * mathPi * Float.ofNat i / Float.ofNat nC)) ::
            (mns ++ ns), mes ++ es)

/-- One SQL statement executed by the flat importer against its tables. -/
inductive FOp where
  | delEdges
  | delNodes
  | insNode (n : FNode)
  | insEdge (e : FEdge)

/-- Effect of one statement on the two tables. -/
def applyFOp (db : FDB) : FOp → FDB
  | .delEdges => { db with edges := [] }
  | .delNodes => { db with nodes := [] }
  | .insNode n => { db with nodes := db.nodes ++ [n] }
  | .insEdge e => { db with edges := db.edges ++ [e] }

/-- The statement trace of a successful run: the two DELETEs of lines
79-80, then every node INSERT (the `executemany` on line 161), then
every edge INSERT (the `executemany` on line 167). -/
def flatOps (ns : List FNode) (es : List FEdge) : List FOp :=
  .delEdges :: .delNodes :: (ns.map .insNode ++ es.map .insEdge)

/-- `import_conversations` of `import_test_data.py` (lines 70-173):
clear both tables, build the node and edge lists in memory, insert
them, and return `(len(nodes), len(edges))`. -/
def import_conversations (env : Env) (db : FDB) (convs : List Conv) :
    Except PyErr (FDB × Nat × Nat) :=
  match flatBuild env convs.length convs 0 0 with
  | .error e => .error e
  | .ok (ns, es) => .ok ((flatOps ns es).foldl applyFOp db, ns.length, es.length)

/-! ## Helper lemmas -/

/-- Length of a concatenation of embedded Python strings. -/
theorem pyLen_append (a b : String) : pyLen (a ++ b) = pyLen a + pyLen b := by
  cases a; cases b
  simp only [pyLen]
  show (List.append _ _).length = _
  simp [List.length_append]

/-- Length of an embedded Python slice `s[:n]`. -/
theorem pyLen_pyTake (s : String) (n : Nat) : pyLen (pyTake s n) = min n (pyLen s) := by
  simp [pyLen, pyTake, List.length_take]

/-- Dropping the cursor tags from the instrumented scan gives exactly
`pair_messages`, including on error. -/
theorem pairIdx_snd (env : Env) (i : Nat) (msgs : List RawMsg) :
    pair_messages env msgs = (pairIdx env i msgs).map (List.map Prod.snd) := by
  induction i, msgs using pairIdx.induct env <;>
    rw [pair_messages, pairIdx] <;>
    simp_all [Except.map]

/-- A successful scan emits at most one exchange per message and at
least one per human message. -/
theorem pairIdx_length (env : Env) (i : Nat) (msgs : List RawMsg) :
    match pairIdx env i msgs with
    | .ok l => l.length ≤ msgs.length ∧ countHumanPairing msgs ≤ l.length
    | .error _ => True := by
  induction i, msgs using pairIdx.induct env <;>
    rw [pairIdx] <;> simp_all [countHumanPairing] <;> omega

/-- The source-message cursors recorded by the scan lie in range and
are strictly increasing, so exchanges come out in source order. -/
theorem pairIdx_indices (env : Env) (i : Nat) (msgs : List RawMsg) :
    match pairIdx env i msgs with
    | .ok l => (∀ p ∈ l, i ≤ p.1 ∧ p.1 < i + msgs.length) ∧
        (l.map Prod.fst).Pairwise (· < ·)
    | .error _ => True := by
  induction i, msgs using pairIdx.induct env <;>
    rw [pairIdx] <;> simp_all <;>
    (rename_i ih
     refine ⟨fun a b hm => ?_, fun a x hm => ?_⟩
     · have := ih.1 a b hm; omega
     · have := ih.1 a x hm; omega)

/-- Every row built by the exchange loop is a `thought` item linked to
its conversation. -/
theorem pExchangeNodes_mem (convId : String) (x y : Float) (cnt : Nat) :
    ∀ (idx : Nat) (exs : List Exchange) (n : PNode),
      n ∈ pExchangeNodes convId x y cnt idx exs →
      n.type = "thought" ∧ n.is_item = 1 ∧ n.conversation_id = some convId := by
  intro idx exs
  induction exs generalizing idx with
  | nil => simp [pExchangeNodes]
  | cons e rest ih =>
    intro n hn
    rw [pExchangeNodes] at hn
    rcases List.mem_cons.mp hn with h | h
    · subst h; exact ⟨rfl, rfl, rfl⟩
    · exact ih _ _ h

/-- A successful pass of the pairing loop only appends rows, and every
appended row is either a container (`context`, unlinked) or an item
(`thought`) linked to a container appended in the same pass. -/
theorem importLoop_new (env : Env) (nC : Nat) (convs : List Conv) (i k : Nat)
    (db : PDB) (st : Stats) :
    match importLoop env nC convs i k db st with
    | .ok (db', _) => ∃ new, db'.nodes = db.nodes ++ new ∧
        ∀ n ∈ new, (n.type = "context" ∧ n.is_item = 0 ∧ n.conversation_id = none) ∨
          (n.type = "thought" ∧ n.is_item = 1 ∧
            ∃ c, c ∈ new ∧ c.type = "context" ∧ n.conversation_id = some c.id)
    | .error _ => True := by
  induction convs, i, k, db, st using importLoop.induct env nC with
  | case1 i k db st => exact ⟨[], by simp, by simp⟩
  | case2 c rest i k db st convId hskip ih =>
    rw [importLoop]
    simp only [convId, hskip, if_pos]
    exact ih
  | case3 c rest i k db st convId hskip e herr =>
    rw [importLoop]
    simp [convId, hskip, herr]
  | case4 c rest i k db st convId hskip exchanges hok cn exNodes ih =>
    rw [importLoop]
    simp only [convId, hskip, Bool.false_eq_true, if_false, hok]
    split
    · rename_i db' st' heq
      rw [heq] at ih
      obtain ⟨new2, hnodes, hP⟩ := ih
      refine ⟨cn :: (exNodes ++ new2), ?_, ?_⟩
      · simp only at hnodes
        rw [hnodes]; simp
      · intro n hn
        rcases List.mem_cons.mp hn with h | h
        · subst h; exact Or.inl ⟨rfl, rfl, rfl⟩
        rcases List.mem_append.mp h with h2 | h2
        · obtain ⟨ht, hi, hc⟩ := pExchangeNodes_mem convId _ _ _ _ _ n h2
          exact Or.inr ⟨ht, hi, cn, List.mem_cons_self _ _, rfl, hc⟩
        · rcases hP n h2 with hL | ⟨ht, hi, cc, hcc, hct, hcid⟩
          · exact Or.inl hL
          · exact Or.inr ⟨ht, hi, cc,
              List.mem_cons_of_mem _ (List.mem_append_right _ hcc), hct, hcid⟩
    · trivial

/-- When every processed conversation has no messages and the table
held no conversation-linked rows, a successful pass leaves the table
free of conversation-linked rows. -/
theorem importLoop_empty (env : Env) (nC : Nat) (convs : List Conv) :
    ∀ (i k : Nat) (db : PDB) (st : Stats),
      (∀ c ∈ convs, c.chat_messages = []) →
      (∀ n ∈ db.nodes, n.conversation_id = none) →
      match importLoop env nC convs i k db st with
      | .ok (db', _) => ∀ n ∈ db'.nodes, n.conversation_id = none
      | .error _ => True := by
  induction convs with
  | nil => intro i k db st _ hdb; rw [importLoop]; exact hdb
  | cons c rest ih =>
    intro i k db st hconvs hdb
    rw [importLoop]
    have hmsgs : c.chat_messages = [] := hconvs c (List.mem_cons_self _ _)
    by_cases hskip : (db.nodes.any fun n => n.id = c.uuid.getD (env.fresh k)) = true
    · simp only [hskip, if_true]
      exact ih _ _ _ _ (fun d hd => hconvs d (List.mem_cons_of_mem _ hd)) hdb
    · simp only [hskip, Bool.false_eq_true, if_false]
      rw [hmsgs, show pair_messages env [] = .ok [] from by rw [pair_messages]]
      simp only [pExchangeNodes]
      exact ih _ _ _ _ (fun d hd => hconvs d (List.mem_cons_of_mem _ hd))
        (fun n hn => by
          rcases List.mem_append.mp hn with h | h
          · exact hdb n h
          · rcases List.mem_cons.mp h with h2 | h2
            · subst h2; rfl
            · simp at h2)

/-- Node and edge counts of the message loop both equal the number of
human messages. -/
theorem fMsgs_count (env : Env) (convId : String) (x y : Float) (mT : Nat)
    (msgs : List RawMsg) (j k : Nat) :
    match fMsgs env convId x y mT msgs j k with
    | .ok (ns, es, _) => ns.length = countHumanFlat msgs ∧ es.length = countHumanFlat msgs
    | .error _ => True := by
  induction msgs, j, k using fMsgs.induct env convId x y mT <;>
    rw [fMsgs] <;> simp_all [countHumanFlat]

/-- The message loop succeeds whenever every human message carries a
`uuid`. -/
theorem fMsgs_ok (env : Env) (convId : String) (x y : Float) (mT : Nat)
    (msgs : List RawMsg) (j k : Nat)
    (h : ∀ m ∈ msgs, m.sender = some "human" → m.uuid.isSome) :
    ∃ ns es kOut, fMsgs env convId x y mT msgs j k = .ok (ns, es, kOut) := by
  induction msgs generalizing j k with
  | nil => exact ⟨[], [], k, rfl⟩
  | cons m rest ih =>
    rw [fMsgs]
    by_cases hs : m.sender = some "human"
    · have hu := h m (List.mem_cons_self _ _) hs
      match hmu : m.uuid with
      | none => rw [hmu] at hu; simp at hu
      | some mid =>
        simp only [hs, if_pos]
        obtain ⟨ns, es, kOut, hrec⟩ :=
          ih (j + 1) (k + 1) (fun d hd => h d (List.mem_cons_of_mem _ hd))
        rw [hrec]
        exact ⟨_, _, kOut, rfl⟩
    · simp only [hs, if_neg]
      exact ih (j + 1) k (fun d hd => h d (List.mem_cons_of_mem _ hd))

/-- Conversely, a successful message loop means every human message
carried a `uuid`. -/
theorem fMsgs_cond (env : Env) (convId : String) (x y : Float) (mT : Nat)
    (msgs : List RawMsg) (j k : Nat) :
    match fMsgs env convId x y mT msgs j k with
    | .ok _ => ∀ m ∈ msgs, m.sender = some "human" → m.uuid.isSome
    | .error _ => True := by
  induction msgs, j, k using fMsgs.induct env convId x y mT <;>
    rw [fMsgs] <;> simp_all

/-- Every edge built by the message loop is a `contains` edge from the
conversation to one of the message rows built alongside it. -/
theorem fMsgs_edges (env : Env) (convId : String) (x y : Float) (mT : Nat)
    (msgs : List RawMsg) (j k : Nat) :
    match fMsgs env convId x y mT msgs j k with
    | .ok (ns, es, _) => ∀ e ∈ es, e.type = "contains" ∧ e.source_id = convId ∧
        ∃ n ∈ ns, n.type = "thought" ∧ n.id = e.target_id
    | .error _ => True := by
  induction msgs, j, k using fMsgs.induct env convId x y mT <;>
    rw [fMsgs] <;> simp_all <;>
    exact ⟨rfl, rfl, Or.inl ⟨rfl, rfl⟩⟩

/-- Total node and edge counts of the flat build, as functions of the
conversation list alone. -/
theorem flatBuild_count (env : Env) (nC : Nat) (convs : List Conv) (i k : Nat) :
    match flatBuild env nC convs i k with
    | .ok (ns, es) =>
        ns.length = convs.length + (convs.map (fun c => countHumanFlat c.chat_messages)).sum ∧
        es.length = (convs.map (fun c => countHumanFlat c.chat_messages)).sum
    | .error _ => True := by
  induction convs, i, k using flatBuild.induct env nC with
  | case1 i k => rw [flatBuild]; simp
  | case2 c rest i k hu => rw [flatBuild]; simp [hu]
  | case3 c rest i k s hu e hF => rw [flatBuild]; simp [hu, hF]
  | case4 c rest i k s hu mns mes kOut hF e hB ih =>
    rw [flatBuild]; simp [hu, hF, hB]
  | case5 c rest i k s hu mns mes kOut hF ns es hB ih =>
    rw [flatBuild]
    have hm := fMsgs_count env s
      (300.0 * Float.cos (2.0 * mathPi * Float.ofNat i / Float.ofNat nC))
      (300.0 * Float.sin (2.0 * mathPi * Float.ofNat i / Float.ofNat nC))
      c.chat_messages.length c.chat_messages 0 k
    rw [hF] at hm
    rw [hB] at ih
    simp only at hm ih
    simp [hu, hF, hB, List.length_append, hm.1, hm.2, ih.1, ih.2, countHumanFlat]
    omega

/-- A successful flat build means every conversation had a `uuid` and
every human message in it had a `uuid`. -/
theorem flatBuild_cond (env : Env) (nC : Nat) (convs : List Conv) (i k : Nat) :
    match flatBuild env nC convs i k with
    | .ok _ => ∀ c ∈ convs, c.uuid.isSome ∧
        ∀ m ∈ c.chat_messages, m.sender = some "human" → m.uuid.isSome
    | .error _ => True := by
  induction convs, i, k using flatBuild.induct env nC with
  | case1 i k => rw [flatBuild]; simp
  | case2 c rest i k hu => rw [flatBuild]; simp [hu]
  | case3 c rest i k s hu e hF => rw [flatBuild]; simp [hu, hF]
  | case4 c rest i k s hu mns mes kOut hF e hB ih =>
    rw [flatBuild]; simp [hu, hF, hB]
  | case5 c rest i k s hu mns mes kOut hF ns es hB ih =>
    rw [flatBuild]
    have hm := fMsgs_cond env s
      (300.0 * Float.cos (2.0 * mathPi * Float.ofNat i / Float.ofNat nC))
      (300.0 * Float.sin (2.0 * mathPi * Float.ofNat i / Float.ofNat nC))
      c.chat_messages.length c.chat_messages 0 k
    rw [hF] at hm
    rw [hB] at ih
    simp only at hm ih
    simp only [hu, hF, hB]
    intro d hd
    rcases List.mem_cons.mp hd with h2 | h2
    · subst h2; exact ⟨by simp [hu], hm⟩
    · exact ih d h2

/-- The flat build succeeds whenever every conversation and every human
message carries a `uuid`. -/
theorem flatBuild_ok (env : Env) (nC : Nat) (convs : List Conv) (i k : Nat)
    (h : ∀ c ∈ convs, c.uuid.isSome ∧
      ∀ m ∈ c.chat_messages, m.sender = some "human" → m.uuid.isSome) :
    ∃ ns es, flatBuild env nC convs i k = .ok (ns, es) := by
  induction convs generalizing i k with
  | nil => exact ⟨[], [], rfl⟩
  | cons c rest ih =>
    rw [flatBuild]
    obtain ⟨hcu, hcm⟩ := h c (List.mem_cons_self _ _)
    match hu : c.uuid with
    | none => rw [hu] at hcu; simp at hcu
    | some convId =>
      obtain ⟨mns, mes, kOut, hF⟩ := fMsgs_ok env convId
        (300.0 * Float.cos (2.0 * mathPi * Float.ofNat i / Float.ofNat nC))
        (300.0 * Float.sin (2.0 * mathPi * Float.ofNat i / Float.ofNat nC))
        c.chat_messages.length c.chat_messages 0 k hcm
      obtain ⟨ns, es, hB⟩ := ih (i + 1) kOut (fun d hd => h d (List.mem_cons_of_mem _ hd))
      simp only
      rw [hF]
      simp only
      rw [hB]
      exact ⟨_, _, rfl⟩

/-- Every edge of a successful flat build is a `contains` edge whose
source is one of the built `context` rows and whose target is one of
the built `thought` rows. -/
theorem flatBuild_edges (env : Env) (nC : Nat) (convs : List Conv) (i k : Nat) :
    match flatBuild env nC convs i k with
    | .ok (ns, es) => ∀ e ∈ es, e.type = "contains" ∧
        (∃ n ∈ ns, n.type = "context" ∧ n.id = e.source_id) ∧
        (∃ n ∈ ns, n.type = "thought" ∧ n.id = e.target_id)
    | .error _ => True := by
  induction convs, i, k using flatBuild.induct env nC with
  | case1 i k => rw [flatBuild]; simp
  | case2 c rest i k hu => rw [flatBuild]; simp [hu]
  | case3 c rest i k s hu e hF => rw [flatBuild]; simp [hu, hF]
  | case4 c rest i k s hu mns mes kOut hF e hB ih =>
    rw [flatBuild]; simp [hu, hF, hB]
  | case5 c rest i k s hu mns mes kOut hF ns es hB ih =>
    rw [flatBuild]
    have hm := fMsgs_edges env s
      (300.0 * Float.cos (2.0 * mathPi * Float.ofNat i / Float.ofNat nC))
      (300.0 * Float.sin (2.0 * mathPi * Float.ofNat i / Float.ofNat nC))
      c.chat_messages.length c.chat_messages 0 k
    rw [hF] at hm
    rw [hB] at ih
    simp only at hm ih
    simp only [hu, hF, hB]
    intro e he
    rcases List.mem_append.mp he with h2 | h2
    · obtain ⟨ht, hsrc, n, hn, hnt, hnid⟩ := hm e h2
      refine ⟨ht, ⟨fConvNode env s c
          (300.0 * Float.cos (2.0 * mathPi * Float.ofNat i / Float.ofNat nC))
          (300.0 * Float.sin (2.0 * mathPi * Float.ofNat i / Float.ofNat nC)),
          List.mem_cons_self _ _, rfl, by rw [hsrc]; exact rfl⟩, n,
        List.mem_cons_of_mem _ (List.mem_append_left _ hn), hnt, hnid⟩
    · obtain ⟨ht, ⟨nc, hnc, hnct, hncid⟩, nt, hnt2, hntt, hntid⟩ := ih e h2
      exact ⟨ht, ⟨nc, List.mem_cons_of_mem _ (List.mem_append_right _ hnc), hnct, hncid⟩,
        nt, List.mem_cons_of_mem _ (List.mem_append_right _ hnt2), hntt, hntid⟩

/-- Replaying node inserts appends exactly those rows to `nodes`. -/
theorem foldl_insNode (ns : List FNode) : ∀ d : FDB,
    (ns.map FOp.insNode).foldl applyFOp d = ⟨d.nodes ++ ns, d.edges⟩ := by
  induction ns with
  | nil => intro d; simp
  | cons n rest ih =>
    intro d
    simp only [List.map_cons, List.foldl_cons, applyFOp]
    rw [ih]
    simp

/-- Replaying edge inserts appends exactly those rows to `edges`. -/
theorem foldl_insEdge (es : List FEdge) : ∀ d : FDB,
    (es.map FOp.insEdge).foldl applyFOp d = ⟨d.nodes, d.edges ++ es⟩ := by
  induction es with
  | nil => intro d; simp
  | cons e rest ih =>
    intro d
    simp only [List.map_cons, List.foldl_cons, applyFOp]
    rw [ih]
    simp

/-- Replaying the full statement trace from any prior state leaves the
tables holding exactly the built rows. -/
theorem flatOps_foldl (db : FDB) (ns : List FNode) (es : List FEdge) :
    (flatOps ns es).foldl applyFOp db = ⟨ns, es⟩ := by
  simp [flatOps, applyFOp, foldl_insNode, foldl_insEdge]

/-! ## Claim theorems -/

/-- C1: for every two-message list `[human: "Q", assistant: "A"]`,
`pair_messages` yields exactly one exchange whose content is
`"Human: Q\n\nAssistant: A"`, and for the one-message list
`[human: "Q"]` with no following assistant message it yields exactly
one exchange whose content is `"Human: Q\n\nAssistant: *No response*"`. -/
theorem pair_messages_two_message_and_lone_human (env : Env) (m1 m2 : RawMsg)
    (h1s : m1.sender = some "human") (h1t : m1.text = some "Q")
    (h2s : m2.sender = some "assistant") (h2t : m2.text = some "A") :
    (∃ ex, pair_messages env [m1, m2] = .ok [ex] ∧
      ex.content = "Human: Q\n\nAssistant: A") ∧
    (∃ ex, pair_messages env [m1] = .ok [ex] ∧
      ex.content = "Human: Q\n\nAssistant: *No response*") := by
  constructor
  · refine ⟨humanExchange env "Q" "A" m1, ?_, by simp [humanExchange]⟩
    simp [pair_messages, extractText, h1s, h1t, h2s, extractAssistantText, h2t]
  · refine ⟨humanExchange env "Q" "*No response*" m1, ?_, by simp [humanExchange]⟩
    simp [pair_messages, extractText, h1s, h1t]

/-- Witness for C1 at concrete messages in the fixed environment. -/
theorem pair_messages_two_message_and_lone_human_witness :
    (∃ ex, pair_messages env0
        [⟨some "human", some "Q", none, none, none, none⟩,
         ⟨some "assistant", some "A", none, none, none, none⟩] = .ok [ex] ∧
      ex.content = "Human: Q\n\nAssistant: A") ∧
    (∃ ex, pair_messages env0 [⟨some "human", some "Q", none, none, none, none⟩] = .ok [ex] ∧
      ex.content = "Human: Q\n\nAssistant: *No response*") :=
  pair_messages_two_message_and_lone_human env0
    ⟨some "human", some "Q", none, none, none, none⟩
    ⟨some "assistant", some "A", none, none, none, none⟩ rfl rfl rfl rfl

/-- C2: a successful `pair_messages` run yields at most one exchange
per raw message and at least one per human message, and the
instrumented scan shows each exchange starts at a source message index,
with those indices strictly increasing (source order preserved) and in
range. -/
theorem pair_messages_count_bounds_and_order (env : Env) (msgs : List RawMsg)
    (exs : List Exchange) (h : pair_messages env msgs = .ok exs) :
    exs.length ≤ msgs.length ∧ countHumanPairing msgs ≤ exs.length ∧
    ∃ l, pairIdx env 0 msgs = .ok l ∧ l.map Prod.snd = exs ∧
      (l.map Prod.fst).Pairwise (· < ·) ∧ ∀ p ∈ l, p.1 < msgs.length := by
  have hsnd := pairIdx_snd env 0 msgs
  have hlen := pairIdx_length env 0 msgs
  have hidx := pairIdx_indices env 0 msgs
  rw [h] at hsnd
  cases hp : pairIdx env 0 msgs with
  | error e => rw [hp] at hsnd; simp [Except.map] at hsnd
  | ok l =>
    rw [hp] at hsnd hlen hidx
    simp only [Except.map, Except.ok.injEq] at hsnd
    refine ⟨?_, ?_, l, rfl, hsnd.symm, hidx.2, fun p hp2 => ?_⟩
    · rw [hsnd, List.length_map]; exact hlen.1
    · rw [hsnd, List.length_map]; exact hlen.2
    · have := hidx.1 p hp2; omega

/-- Witness for C2 on a concrete two-message conversation. -/
theorem pair_messages_count_bounds_and_order_witness :
    ∃ exs, pair_messages env0
        [⟨some "human", some "Q", none, none, none, none⟩,
         ⟨some "assistant", some "A", none, none, none, none⟩] = .ok exs ∧
      exs.length ≤ 2 ∧
      countHumanPairing
        [⟨some "human", some "Q", none, none, none, none⟩,
         ⟨some "assistant", some "A", none, none, none, none⟩] ≤ exs.length := by
  have h : pair_messages env0
      [⟨some "human", some "Q", none, none, none, none⟩,
       ⟨some "assistant", some "A", none, none, none, none⟩] =
      .ok [⟨"Q", "Human: Q\n\nAssistant: A", 0⟩] := by
    simp [pair_messages, extractText, extractAssistantText, humanExchange,
      create_exchange_title, parse_timestamp, parseTimestampBody, env0]
    decide
  refine ⟨_, h, ?_, ?_⟩
  · exact (pair_messages_count_bounds_and_order env0 _ _ h).1
  · exact (pair_messages_count_bounds_and_order env0 _ _ h).2.1

/-- C3 counterexample: the title is not always the first line of the
raw text, because the code strips whitespace first: on the text
`" Q"`, whose first line is `" Q"` itself (and is well under 60
characters, so the claim says the title equals it), the computed title
is `"Q"`. -/
theorem create_exchange_title_not_raw_first_line :
    create_exchange_title " Q" ≠ pyFirstLine " Q" ∧
    pyLen (pyFirstLine " Q") ≤ 60 := by decide

/-- C3 amended: the title equals the first line of the
whitespace-stripped text; when that line exceeds 60 characters the
title is its first 60 characters plus the 3-character ellipsis, hence
exactly 63 characters (in particular for a 75-character stripped first
line). -/
theorem create_exchange_title_stripped_first_line (s fl : String)
    (hfl : fl = pyFirstLine (pyStrip s)) :
    (pyLen fl ≤ 60 → create_exchange_title s = fl) ∧
    (pyLen fl > 60 → create_exchange_title s = pyTake fl 60 ++ "..." ∧
      pyLen (create_exchange_title s) = 63) := by
  subst hfl
  unfold create_exchange_title
  constructor
  · intro h
    rw [if_neg (by omega)]
  · intro h
    rw [if_pos (by omega)]
    refine ⟨rfl, ?_⟩
    rw [pyLen_append, pyLen_pyTake]
    have h3 : pyLen "..." = 3 := rfl
    omega

/-- Witness for the amended C3 at a 75-character single-line text. -/
theorem create_exchange_title_stripped_first_line_witness :
    pyLen (pyFirstLine (pyStrip
      "aaaaaaaaaaaaaaaaaaaaaaaaaaaaaaaaaaaaaaaaaaaaaaaaaaaaaaaaaaaaaaaaaaaaaaaaaaa")) > 60 ∧
    pyLen (create_exchange_title
      "aaaaaaaaaaaaaaaaaaaaaaaaaaaaaaaaaaaaaaaaaaaaaaaaaaaaaaaaaaaaaaaaaaaaaaaaaaa") = 63 := by
  refine ⟨by decide, ?_⟩
  exact ((create_exchange_title_stripped_first_line
    "aaaaaaaaaaaaaaaaaaaaaaaaaaaaaaaaaaaaaaaaaaaaaaaaaaaaaaaaaaaaaaaaaaaaaaaaaaa"
    _ rfl).2 (by decide)).2

/-- C4: the claimed total fallback fails on an empty content-block
list: a message whose `text` is falsy and whose `content` is `[]`
makes the line-35 extraction raise `IndexError`, so `pair_messages`
raises instead of returning exchanges. -/
theorem extractText_empty_content_block_list_raises :
    extractText ⟨some "human", some "", some [], none, none, none⟩ = .error .indexError ∧
    pair_messages env0 [⟨some "human", some "", some [], none, none, none⟩] =
      .error .indexError := by
  refine ⟨rfl, ?_⟩
  simp [pair_messages, extractText, extractText.extractTextFallback]

/-- C5: when the database already holds a node with non-null
`conversation_id`, the pairing run returns with the database unchanged
and all counters zero. -/
theorem mainImport_aborts_on_existing_conversation_nodes (env : Env) (db : PDB)
    (convs : List Conv) (h : countConvLinked db > 0) :
    mainImport env db convs = .ok (db, ⟨0, 0, 0⟩) := by
  simp [mainImport, h]

/-- Witness for C5 on a one-row database with a linked node. -/
theorem mainImport_aborts_on_existing_conversation_nodes_witness :
    countConvLinked ⟨[⟨"n0", "thought", "t", none, "c", 0.0, 0.0, 0, 0, none, none,
      none, none, none, "e", 0, 0, 1, 0, none, 0, some "c0", some 0, 0, none⟩]⟩ > 0 ∧
    mainImport env0 ⟨[⟨"n0", "thought", "t", none, "c", 0.0, 0.0, 0, 0, none, none,
      none, none, none, "e", 0, 0, 1, 0, none, 0, some "c0", some 0, 0, none⟩]⟩ [] =
      .ok (⟨[⟨"n0", "thought", "t", none, "c", 0.0, 0.0, 0, 0, none, none,
        none, none, none, "e", 0, 0, 1, 0, none, 0, some "c0", some 0, 0, none⟩]⟩,
        ⟨0, 0, 0⟩) :=
  ⟨Nat.one_pos, mainImport_aborts_on_existing_conversation_nodes env0 _ [] Nat.one_pos⟩

/-- C6: the flat importer clears both tables before inserting, so a
successful run's final state does not depend on the prior database
state, a second run (under any environment) also succeeds, and the
final node and edge row counts after running twice equal those after
running once. -/
theorem import_conversations_full_replace_idempotent (env1 env2 : Env) (db : FDB)
    (convs : List Conv) (db1 : FDB) (r1 : Nat × Nat)
    (h : import_conversations env1 db convs = .ok (db1, r1)) :
    (∀ db0, import_conversations env1 db0 convs = .ok (db1, r1)) ∧
    ∃ db2 r2, import_conversations env2 db1 convs = .ok (db2, r2) ∧
      db2.nodes.length = db1.nodes.length ∧
      db2.edges.length = db1.edges.length ∧ r2 = r1 := by
  unfold import_conversations at h ⊢
  cases hb : flatBuild env1 convs.length convs 0 0 with
  | error e => rw [hb] at h; simp at h
  | ok t =>
    obtain ⟨ns1, es1⟩ := t
    rw [hb] at h
    simp only [Except.ok.injEq, Prod.mk.injEq] at h
    obtain ⟨hdb1, hr1⟩ := h
    have hcond := flatBuild_cond env1 convs.length convs 0 0
    rw [hb] at hcond
    simp only at hcond
    obtain ⟨ns2, es2, hb2⟩ := flatBuild_ok env2 convs.length convs 0 0 hcond
    have hc1 := flatBuild_count env1 convs.length convs 0 0
    have hc2 := flatBuild_count env2 convs.length convs 0 0
    rw [hb] at hc1
    rw [hb2] at hc2
    simp only at hc1 hc2
    constructor
    · intro db0
      simp only
      rw [flatOps_foldl] at hdb1 ⊢
      rw [hdb1, hr1]
    · refine ⟨(flatOps ns2 es2).foldl applyFOp db1, (ns2.length, es2.length), ?_, ?_, ?_, ?_⟩
      · rw [hb2]
      · rw [flatOps_foldl, ← hdb1, flatOps_foldl]
        simp [hc1.1, hc2.1]
      · rw [flatOps_foldl, ← hdb1, flatOps_foldl]
        simp [hc1.2, hc2.2]
      · rw [← hr1]
        simp [hc1.1, hc2.1, hc1.2, hc2.2]

/-- Witness for C6 on a one-conversation input from an empty database. -/
theorem import_conversations_full_replace_idempotent_witness :
    ∃ db1 r1, import_conversations env0 ⟨[], []⟩
        [⟨some "c", none, none, none, none, []⟩] = .ok (db1, r1) ∧
      ((∀ db0, import_conversations env0 db0
          [⟨some "c", none, none, none, none, []⟩] = .ok (db1, r1)) ∧
       ∃ db2 r2, import_conversations env0 db1
          [⟨some "c", none, none, none, none, []⟩] = .ok (db2, r2) ∧
         db2.nodes.length = db1.nodes.length ∧
         db2.edges.length = db1.edges.length ∧ r2 = r1) :=
  ⟨_, _, rfl, import_conversations_full_replace_idempotent env0 env0 _ _ _ _ rfl⟩

/-- C7: the `child_count` stored on a flat conversation row equals the
number of messages whose sender is exactly `human`, and a successful
message loop emits exactly that many message rows (and edges). -/
theorem flat_child_count_equals_human_and_emitted (env : Env) (convId : String)
    (c : Conv) (x y : Float) (k : Nat) (ns : List FNode) (es : List FEdge) (kOut : Nat)
    (h : fMsgs env convId x y c.chat_messages.length c.chat_messages 0 k = .ok (ns, es, kOut)) :
    (fConvNode env convId c x y).child_count = Int.ofNat (countHumanFlat c.chat_messages) ∧
    ns.length = countHumanFlat c.chat_messages ∧
    es.length = countHumanFlat c.chat_messages := by
  have hm := fMsgs_count env convId x y c.chat_messages.length c.chat_messages 0 k
  rw [h] at hm
  exact ⟨rfl, hm.1, hm.2⟩

/-- Witness for C7 on a conversation with one human and no other
messages. -/
theorem flat_child_count_equals_human_and_emitted_witness :
    ∃ ns es kOut, fMsgs env0 "c" 0.0 0.0
        (⟨some "c", none, none, none, none,
          [⟨some "human", some "hi", none, none, none, some "m1"⟩]⟩ : Conv).chat_messages.length
        (⟨some "c", none, none, none, none,
          [⟨some "human", some "hi", none, none, none, some "m1"⟩]⟩ : Conv).chat_messages 0 0 =
        .ok (ns, es, kOut) ∧
      (fConvNode env0 "c" ⟨some "c", none, none, none, none,
        [⟨some "human", some "hi", none, none, none, some "m1"⟩]⟩ 0.0 0.0).child_count =
        Int.ofNat (countHumanFlat
          [⟨some "human", some "hi", none, none, none, some "m1"⟩]) ∧
      ns.length = countHumanFlat [⟨some "human", some "hi", none, none, none, some "m1"⟩] :=
  ⟨_, _, _, rfl,
    (flat_child_count_equals_human_and_emitted env0 "c"
      ⟨some "c", none, none, none, none,
        [⟨some "human", some "hi", none, none, none, some "m1"⟩]⟩ 0.0 0.0 0 _ _ _ rfl).1,
    (flat_child_count_equals_human_and_emitted env0 "c"
      ⟨some "c", none, none, none, none,
        [⟨some "human", some "hi", none, none, none, some "m1"⟩]⟩ 0.0 0.0 0 _ _ _ rfl).2.1⟩

/-- C8: in a successful flat run the final state replays the statement
trace, in which both DELETEs come first, every node INSERT precedes
every edge INSERT, and every inserted edge is a `contains` edge whose
source is an inserted `context` row and whose target an inserted
`thought` row. -/
theorem flat_edges_contains_with_inserted_endpoints (env : Env) (db : FDB)
    (convs : List Conv) (db' : FDB) (r : Nat × Nat)
    (h : import_conversations env db convs = .ok (db', r)) :
    ∃ ns es, flatBuild env convs.length convs 0 0 = .ok (ns, es) ∧
      db' = ⟨ns, es⟩ ∧
      flatOps ns es = (FOp.delEdges :: FOp.delNodes :: ns.map FOp.insNode) ++ es.map FOp.insEdge ∧
      (∀ op ∈ FOp.delEdges :: FOp.delNodes :: ns.map FOp.insNode, ∀ e, op ≠ FOp.insEdge e) ∧
      (∀ op ∈ es.map FOp.insEdge, ∀ n, op ≠ FOp.insNode n) ∧
      ∀ e ∈ es, e.type = "contains" ∧
        (∃ n ∈ ns, n.type = "context" ∧ n.id = e.source_id) ∧
        (∃ n ∈ ns, n.type = "thought" ∧ n.id = e.target_id) := by
  unfold import_conversations at h
  cases hb : flatBuild env convs.length convs 0 0 with
  | error e => rw [hb] at h; simp at h
  | ok t =>
    obtain ⟨ns, es⟩ := t
    rw [hb] at h
    simp only [Except.ok.injEq, Prod.mk.injEq] at h
    have hedges := flatBuild_edges env convs.length convs 0 0
    rw [hb] at hedges
    simp only at hedges
    refine ⟨ns, es, rfl, ?_, rfl, ?_, ?_, hedges⟩
    · rw [← h.1, flatOps_foldl]
    · intro op hop e2
      rcases List.mem_cons.mp hop with h1 | h1
      · subst h1; simp
      rcases List.mem_cons.mp h1 with h2 | h2
      · subst h2; simp
      · obtain ⟨n, _, rfl⟩ := List.mem_map.mp h2
        simp
    · intro op hop n2
      obtain ⟨e3, _, rfl⟩ := List.mem_map.mp hop
      simp

/-- Witness for C8 on a one-conversation, one-human-message input. -/
theorem flat_edges_contains_with_inserted_endpoints_witness :
    ∃ db' r, import_conversations env0 ⟨[], []⟩
        [⟨some "c", none, none, none, none,
          [⟨some "human", some "hi", none, none, none, some "m1"⟩]⟩] = .ok (db', r) ∧
      ∃ ns es, flatBuild env0 1
          [⟨some "c", none, none, none, none,
            [⟨some "human", some "hi", none, none, none, some "m1"⟩]⟩] 0 0 = .ok (ns, es) ∧
        db' = ⟨ns, es⟩ ∧
        ∀ e ∈ es, e.type = "contains" ∧
          (∃ n ∈ ns, n.type = "context" ∧ n.id = e.source_id) ∧
          (∃ n ∈ ns, n.type = "thought" ∧ n.id = e.target_id) := by
  refine ⟨_, _, rfl, ?_⟩
  obtain ⟨ns, es, h1, h2, _, _, _, h6⟩ :=
    flat_edges_contains_with_inserted_endpoints env0 ⟨[], []⟩
      [⟨some "c", none, none, none, none,
        [⟨some "human", some "hi", none, none, none, some "m1"⟩]⟩] _ _ rfl
  exact ⟨ns, es, h1, h2, h6⟩

/-- C9: `parse_timestamp` is total: on a string whose 'Z'-to-'+00:00'
replacement the external ISO-8601 parser accepts, it returns that
instant in epoch milliseconds; on any parse failure or non-string
input it returns the current wall clock; and on a string whose only
'Z' is trailing, the replacement rewrites exactly that trailing 'Z'
to the UTC offset. -/
theorem parse_timestamp_success_and_fallback (env : Env) (s : String) :
    (∀ ms, env.fromisoformat (pyReplaceChar s 'Z' "+00:00") = some ms →
      parse_timestamp env (some s) = ms) ∧
    (env.fromisoformat (pyReplaceChar s 'Z' "+00:00") = none →
      parse_timestamp env (some s) = env.now_ms) ∧
    parse_timestamp env none = env.now_ms ∧
    ((∀ c ∈ s.data, c ≠ 'Z') →
      pyReplaceChar (s ++ "Z") 'Z' "+00:00" = s ++ "+00:00") := by
  refine ⟨?_, ?_, rfl, ?_⟩
  · intro ms h; simp [parse_timestamp, parseTimestampBody, h]
  · intro h; simp [parse_timestamp, parseTimestampBody, h]
  · intro h
    cases s with
    | mk l =>
      show String.mk ((l ++ ['Z']).flatMap _) = _
      rw [List.flatMap_append]
      have hsame : (l.flatMap fun d => if d = 'Z' then ("+00:00" : String).data else [d]) = l := by
        induction l with
        | nil => rfl
        | cons c cs ih =>
          simp only [List.mem_cons] at h
          simp [List.flatMap_cons, h c (Or.inl rfl), ih (fun d hd => h d (Or.inr hd))]
      rw [hsame]
      rfl

/-- Witness for C9 in the fixed environment, where no string parses. -/
theorem parse_timestamp_success_and_fallback_witness :
    parse_timestamp env0 (some "2024-01-01T00:00:00Z") = env0.now_ms ∧
    parse_timestamp env0 none = env0.now_ms ∧
    pyReplaceChar ("2024-01-01T00:00:00" ++ "Z") 'Z' "+00:00" =
      "2024-01-01T00:00:00" ++ "+00:00" :=
  ⟨(parse_timestamp_success_and_fallback env0 "2024-01-01T00:00:00Z").2.1 rfl,
   (parse_timestamp_success_and_fallback env0 "2024-01-01T00:00:00Z").2.2.1,
   (parse_timestamp_success_and_fallback env0 "2024-01-01T00:00:00").2.2.2 (by decide)⟩

/-- C10: a successful pairing run only appends rows, every appended
exchange row is a `thought` item whose `conversation_id` is the id of
a `context` container appended in the same run, every appended
container has `conversation_id` NULL; hence when the initial database
has no conversation-linked node and every conversation has zero
messages, the resulting database has no conversation-linked node and a
subsequent run proceeds past the pre-existing-import guard into the
loop. -/
theorem mainImport_conversation_id_discipline (env : Env) (db : PDB)
    (convs : List Conv) (db' : PDB) (st : Stats)
    (h : mainImport env db convs = .ok (db', st)) :
    (∃ new, db'.nodes = db.nodes ++ new ∧
      ∀ n ∈ new, (n.type = "context" ∧ n.is_item = 0 ∧ n.conversation_id = none) ∨
        (n.type = "thought" ∧ n.is_item = 1 ∧
          ∃ c, c ∈ new ∧ c.type = "context" ∧ n.conversation_id = some c.id)) ∧
    ((∀ n ∈ db.nodes, n.conversation_id = none) → (∀ c ∈ convs, c.chat_messages = []) →
      countConvLinked db' = 0 ∧
      ∀ (env2 : Env) (convs2 : List Conv), mainImport env2 db' convs2 =
        importLoop env2 convs2.length convs2 0 0 db' ⟨0, 0, 0⟩) := by
  unfold mainImport at h
  by_cases hg : countConvLinked db > 0
  · rw [if_pos hg] at h
    injection h with h2
    rw [Prod.mk.injEq] at h2
    obtain ⟨rfl, rfl⟩ := h2
    refine ⟨⟨[], by simp, by simp⟩, fun hnone _ => absurd hg ?_⟩
    simp only [countConvLinked, not_lt, Nat.le_zero]
    exact List.countP_eq_zero.mpr (fun n hn => by simp [hnone n hn])
  · rw [if_neg hg] at h
    constructor
    · have hnew := importLoop_new env convs.length convs 0 0 db ⟨0, 0, 0⟩
      rw [h] at hnew
      exact hnew
    · intro hnone hempty
      have he := importLoop_empty env convs.length convs 0 0 db ⟨0, 0, 0⟩ hempty hnone
      rw [h] at he
      have hcount : countConvLinked db' = 0 :=
        List.countP_eq_zero.mpr (fun n hn => by simp [he n hn])
      exact ⟨hcount, fun env2 convs2 => by rw [mainImport, if_neg (by omega)]⟩

/-- Witness for C10: one zero-message conversation imported into an
empty database leaves no conversation-linked node. -/
theorem mainImport_conversation_id_discipline_witness :
    ∃ db' st, mainImport env0 ⟨[]⟩ [⟨some "c", none, none, none, none, []⟩] = .ok (db', st) ∧
      countConvLinked db' = 0 := by
  have h : mainImport env0 ⟨[]⟩ [⟨some "c", none, none, none, none, []⟩] =
      .ok (⟨[pConvNode env0 "c" ⟨some "c", none, none, none, none, []⟩ 0 1 0]⟩, ⟨1, 0, 0⟩) := by
    rw [mainImport]
    rw [if_neg (by decide)]
    rw [importLoop]
    rw [show (⟨some "c", none, none, none, none, []⟩ : Conv).chat_messages = [] from rfl]
    rw [show pair_messages env0 ([] : List RawMsg) = .ok [] from by rw [pair_messages]]
    rfl
  refine ⟨_, _, h, ?_⟩
  exact ((mainImport_conversation_id_discipline env0 ⟨[]⟩ _ _ _ h).2
    (by simp)
    (fun c hc => by
      rcases List.mem_singleton.mp hc with rfl
      rfl)).1
